import Mathlib

/-!
Verification of the policy-scanner reconciliation core.

The embedding below follows the two JavaScript sources of the repository:
`src/dash_pdf_ui/static/operator_view.js` (the report dashboard) and the
unnamed per-policy view script (`renderPolicyFull`).  JavaScript optional
string fields become `Option String` (with `none` for `undefined`/`null`),
JavaScript string truthiness becomes `truthy`, `Array.prototype.find`
becomes the structurally recursive `jsFind`, and a JavaScript `Date`
object becomes `Option CalDate` (`none` standing for an `Invalid Date`,
whose numeric accessors are `NaN`).  A nullable JavaScript date
(`Date | null`) is therefore `Option (Option CalDate)`.

The browser's generic free-form date parser (`Date.parse` / `new Date(s)`
on non-canonical strings) is host-environment behaviour, not repository
code, so it is a parameter of every definition that reaches it: `g` maps
a string to `none` (NaN / unparseable) or a calendar date, and `dparse`
maps a string to the epoch-day number of its local midnight truncation.
-/

namespace PolicyScanner

/-- JavaScript truthiness of an optional string: `undefined`, `null` and
the empty string are falsy, every other string is truthy. -/
def truthy : Option String → Bool
  | none => false
  | some s => !(s == "")

/-- The JavaScript idiom `a || d` for an optional string `a` and a string
default `d`: the string itself when truthy, otherwise the default. -/
def orDash (a : Option String) (d : String) : String :=
  match a with
  | some s => if s == "" then d else s
  | none => d

/-- The JavaScript idiom `a || b` on two optional strings. -/
def jsOr (a b : Option String) : Option String :=
  if truthy a then a else b

/-- First element satisfying the predicate, scanning in list order:
`Array.prototype.find`. -/
def jsFind (p : α → Bool) : List α → Option α
  | [] => none
  | x :: xs => if p x then some x else jsFind p xs

/-! ## Calendar dates -/

/-- A valid calendar date as carried by a (valid) JavaScript `Date`
constructed from an ISO `YYYY-MM-DDT00:00:00` string. -/
structure CalDate where
  year : Nat
  month : Nat
  day : Nat
deriving DecidableEq, Repr

def isLeapYear (y : Nat) : Bool :=
  y % 4 == 0 && (y % 100 != 0 || y % 400 == 0)

def daysInMonth (y m : Nat) : Nat :=
  if m == 2 then (if isLeapYear y then 29 else 28)
  else if m == 4 || m == 6 || m == 9 || m == 11 then 30
  else 31

/-- The result of `new Date("YYYY-MM-DDT00:00:00")` with numeric components: a valid
calendar date, or `none` (an `Invalid Date`) when the month or the day is
out of range, as the engines reject such ISO strings. -/
def mkJsDate (y m d : Nat) : Option CalDate :=
  if 1 ≤ m ∧ m ≤ 12 ∧ 1 ≤ d ∧ d ≤ daysInMonth y m then some ⟨y, m, d⟩
  else none

/-! ## The two regular-expression scanners of `parseMaybeDate`

`parseMaybeDate` first searches the input for
`\b(\d{2})\/(\d{2})\/(\d{4})\b` and then for `\b(\d{4})-(\d{2})-(\d{2})\b`,
taking the leftmost match.  A word character is `[A-Za-z0-9_]`; the
leading `\b` holds when the previous character is absent or not a word
character (the first pattern character is a digit), the trailing `\b`
when the following character is absent or not a word character. -/

def isWordChar (c : Char) : Bool := c.isAlphanum || c == '_'

def digitVal (c : Char) : Nat := c.toNat - 48

def digit2 (a b : Char) : Nat := 10 * digitVal a + digitVal b

def digit4 (a b c d : Char) : Nat :=
  1000 * digitVal a + 100 * digitVal b + 10 * digitVal c + digitVal d

def wordBoundaryAfter : List Char → Bool
  | [] => true
  | c :: _ => !(isWordChar c)

def boundaryBefore : Option Char → Bool
  | none => true
  | some c => !(isWordChar c)

/-- Attempt `(\d{2})\/(\d{2})\/(\d{4})\b` at the head of the character
list; result is `(month, day, year)` in the order of the capture groups. -/
def matchSlashHere : List Char → Option (Nat × Nat × Nat)
  | c1 :: c2 :: s1 :: c3 :: c4 :: s2 :: y1 :: y2 :: y3 :: y4 :: rest =>
    if c1.isDigit && c2.isDigit && s1 == '/' && c3.isDigit && c4.isDigit &&
       s2 == '/' && y1.isDigit && y2.isDigit && y3.isDigit && y4.isDigit &&
       wordBoundaryAfter rest
    then some (digit2 c1 c2, digit2 c3 c4, digit4 y1 y2 y3 y4)
    else none
  | _ => none

/-- Leftmost match of `\b(\d{2})\/(\d{2})\/(\d{4})\b`; `prev` is the
character just before the current position. -/
def scanSlash (prev : Option Char) : List Char → Option (Nat × Nat × Nat)
  | [] => none
  | c :: cs =>
    match (if boundaryBefore prev then matchSlashHere (c :: cs) else none) with
    | some r => some r
    | none => scanSlash (some c) cs

/-- Attempt `(\d{4})-(\d{2})-(\d{2})\b` at the head of the character
list; result is `(year, month, day)` in the order of the capture groups. -/
def matchIsoHere : List Char → Option (Nat × Nat × Nat)
  | y1 :: y2 :: y3 :: y4 :: s1 :: m1 :: m2 :: s2 :: d1 :: d2 :: rest =>
    if y1.isDigit && y2.isDigit && y3.isDigit && y4.isDigit && s1 == '-' &&
       m1.isDigit && m2.isDigit && s2 == '-' && d1.isDigit && d2.isDigit &&
       wordBoundaryAfter rest
    then some (digit4 y1 y2 y3 y4, digit2 m1 m2, digit2 d1 d2)
    else none
  | _ => none

/-- Leftmost match of `\b(\d{4})-(\d{2})-(\d{2})\b`. -/
def scanIso (prev : Option Char) : List Char → Option (Nat × Nat × Nat)
  | [] => none
  | c :: cs =>
    match (if boundaryBefore prev then matchIsoHere (c :: cs) else none) with
    | some r => some r
    | none => scanIso (some c) cs

/-- The function `parseMaybeDate` (identical in both source files).  Result `none` is
the JavaScript `null` sentinel; `some none` is an `Invalid Date` object;
`some (some d)` is a valid date.  `g` is the host's generic free-form
parser (`Date.parse` followed by the `isNaN` check, so it never produces
an invalid date). -/
def parseMaybeDate (g : String → Option CalDate) : Option String → Option (Option CalDate)
  | none => none
  | some s =>
    if s == "" then none
    else
      match scanSlash none s.toList with
      | some (m, d, y) => some (mkJsDate y m d)
      | none =>
        match scanIso none s.toList with
        | some (y, m, d) => some (mkJsDate y m d)
        | none =>
          match g s with
          | none => none
          | some dte => some (some dte)

/-! ## Month arithmetic -/

/-- The accessor `getFullYear` of a possibly invalid date (`none` is `NaN`). -/
def getFullYear : Option CalDate → Option Int
  | none => none
  | some d => some (d.year : Int)

/-- The accessor `getMonth` (zero-based) of a possibly invalid date. -/
def getMonth : Option CalDate → Option Int
  | none => none
  | some d => some ((d.month : Int) - 1)

/-- NaN-propagating subtraction on JavaScript numbers. -/
def jsSub : Option Int → Option Int → Option Int
  | some a, some b => some (a - b)
  | _, _ => none

/-- NaN-propagating addition. -/
def jsAdd : Option Int → Option Int → Option Int
  | some a, some b => some (a + b)
  | _, _ => none

/-- NaN-propagating multiplication. -/
def jsMul : Option Int → Option Int → Option Int
  | some a, some b => some (a * b)
  | _, _ => none

/-- The core of `monthsBetween(d1, d2)` on two non-null (possibly invalid) dates:
`(d2.getFullYear() - d1.getFullYear()) * 12 + (d2.getMonth() - d1.getMonth())`.
`none` is `NaN`. -/
def monthsBetweenV (d1 d2 : Option CalDate) : Option Int :=
  jsAdd (jsMul (jsSub (getFullYear d2) (getFullYear d1)) (some 12))
        (jsSub (getMonth d2) (getMonth d1))

/-- Full `monthsBetween` including the `if (!d1 || !d2) return null` guard:
the outer `Option` distinguishes the `null` result, the inner one `NaN`. -/
def monthsBetween (d1 d2 : Option (Option CalDate)) : Option (Option Int) :=
  match d1, d2 with
  | some a, some b => some (monthsBetweenV a b)
  | _, _ => none

/-! ## Date formatting -/

/-- Two-digit padding, `String(n).padStart(2, '0')`. -/
def pad2 (n : Nat) : String :=
  if n < 10 then "0" ++ toString n else toString n

/-- The formatter `formatDateToMMDDYYYY` applied to a truthy (possibly invalid) date:
an invalid date renders as `NaN/NaN/NaN` because each accessor is `NaN`. -/
def formatMMDDYYYY : Option CalDate → String
  | none => "NaN/NaN/NaN"
  | some d => pad2 d.month ++ "/" ++ pad2 d.day ++ "/" ++ toString d.year

/-! ## Data model

Fields are exactly the optional free-text fields the reconciliation code
reads; `policy.header || {}` and `policy.operators || []` are normalised
into a total header and a plain list, which is observationally identical. -/

structure Operator where
  operator_name : Option String := none
  dln : Option String := none
  relationship : Option String := none
  year_of_birth : Option String := none
  start_term : Option String := none
  end_term : Option String := none
deriving DecidableEq, Repr

structure PolicyHeader where
  policy_number : Option String := none
  insurer : Option String := none
  policyholder_name : Option String := none
  effective_date : Option String := none
  expiry_date : Option String := none
  cancellation_date : Option String := none
  end_of_latest_term : Option String := none
deriving DecidableEq, Repr

structure Policy where
  header : PolicyHeader := {}
  operators : List Operator := []
  start_of_earliest_term : Option String := none
deriving DecidableEq, Repr

/-! ## `renderReport` headline metrics

`renderReport` computes the four headline values over the received
reverse-chronological policy list (`policies[0]` most recent).  The
days-to-expiry block feeds the headline expiry string to `new Date(...)`
and truncates both it and today to local midnight; `dparse` abstracts
that as a map from the string to the epoch-day number of the truncated
date (`none` when the string yields an `Invalid Date`), and `today` is
the epoch-day number of today's midnight. -/

/-- The value `lastPolicy.start_of_earliest_term || '—'`, `'—'` on an empty list. -/
def yearsContinuousInsuranceDateOf (policies : List Policy) : String :=
  match policies.getLast? with
  | none => "—"
  | some lastP => orDash lastP.start_of_earliest_term "—"

/-- First policy's `start_of_earliest_term`, replaced by the header
`effective_date` when absent, `'—'` or `''`; then `|| '—'`. -/
def currentInsuranceDateOf (policies : List Policy) : String :=
  match policies with
  | [] => "—"
  | p :: _ =>
    let i := p.start_of_earliest_term
    let i2 := if !truthy i || i == some "—" then p.header.effective_date else i
    orDash i2 "—"

/-- The value `policies[0].header.end_of_latest_term || expiry_date || '—'`. -/
def currentPolicyExpiryOf (policies : List Policy) : String :=
  match policies with
  | [] => "—"
  | p :: _ => orDash p.header.end_of_latest_term (orDash p.header.expiry_date "—")

inductive ExpiryClass where
  | expired
  | warning
  | ok
  | unclassified
deriving DecidableEq, Repr

/-- The days-to-expiry block of `renderReport`: the CSS class put on the
`daysToExpiry` element and the text written into it.  When the headline
expiry string is truthy and not `'—'` it is fed to `new Date(...)`; an
unparseable string gives `NaN` days, for which both `< 0` and `<= 30`
are false (class `ok`) and `Math.max(0, NaN)` renders as `"NaN"`. -/
def daysToExpiryPair (dparse : String → Option Int) (today : Int)
    (policies : List Policy) : ExpiryClass × String :=
  let c := currentPolicyExpiryOf policies
  if c == "" || c == "—" then (ExpiryClass.unclassified, "—")
  else
    match dparse c with
    | some e =>
      let d := e - today
      (if d < 0 then ExpiryClass.expired
       else if d ≤ 30 then ExpiryClass.warning
       else ExpiryClass.ok,
       toString (max 0 d))
    | none => (ExpiryClass.ok, "NaN")

/-! ## `renderPolicies` policy numbering

`renderPolicies` copies the received list (`[...policies].reverse()`),
iterates the reversed copy, and badges each entry with
`totalPolicies - reversedIdx`.  `displayedPolicies` is the list of
(policy, badge) pairs in display order. -/

def displayedPolicies (policies : List Policy) : List (Policy × Nat) :=
  policies.reverse.enum.map (fun pr => (pr.2, policies.reverse.length - pr.1))

/-! ## Charwise string operations

The built-in `String` functions are opaque to the kernel, so the
JavaScript string methods are embedded charwise: `jsTrim` is
`String.prototype.trim`, `jsLower` is `toLowerCase` (ASCII, all the code
uses), `wsTokens` the non-whitespace runs produced by `split(/\s+/)`
after dropping empties, and `isInfixList` is `String.prototype.includes`. -/

def lowerChar (c : Char) : Char :=
  if 'A' ≤ c && c ≤ 'Z' then Char.ofNat (c.toNat + 32) else c

def jsLower (s : String) : String :=
  String.mk (s.toList.map lowerChar)

def trimList (cs : List Char) : List Char :=
  ((cs.dropWhile Char.isWhitespace).reverse.dropWhile Char.isWhitespace).reverse

def jsTrim (s : String) : String :=
  String.mk (trimList s.toList)

def wsTokensAux : List Char → List Char → List String
  | acc, [] => if acc.isEmpty then [] else [String.mk acc.reverse]
  | acc, c :: cs =>
    if c.isWhitespace then
      (if acc.isEmpty then wsTokensAux [] cs
       else String.mk acc.reverse :: wsTokensAux [] cs)
    else wsTokensAux (c :: acc) cs

/-- The maximal non-whitespace runs of a string, in order. -/
def wsTokens (s : String) : List String :=
  wsTokensAux [] s.toList

def isPrefixList : List Char → List Char → Bool
  | [], _ => true
  | _ :: _, [] => false
  | a :: as, b :: bs => a == b && isPrefixList as bs

def isInfixList (sub : List Char) : List Char → Bool
  | [] => isPrefixList sub []
  | c :: cs => isPrefixList sub (c :: cs) || isInfixList sub cs

/-! ## Operator matching -/

/-- The `mainOp`/`matchingOp` loop of `renderPolicyFull`: the target is
`(report.header?.dln || '').trim()` and each operator is compared by
`(op.dln || '').trim() === target`, first match wins. -/
def matchByLicenseFull (ops : List Operator) (dln : Option String) : Option Operator :=
  let target := jsTrim (dln.getD "")
  jsFind (fun o => jsTrim (o.dln.getD "") == target) ops

/-- The `dlnMatchedOp` lookup of `renderPolicies`: skipped entirely when
`driverDLN` is falsy, and otherwise an untrimmed strict-equality find. -/
def matchByLicenseView (ops : List Operator) (dln : Option String) : Option Operator :=
  if truthy dln then jsFind (fun o => o.dln == dln) ops else none

/-- Substring containment, `String.prototype.includes`. -/
def strContains (s sub : String) : Bool :=
  isInfixList sub.toList s.toList

/-- The tokens `policyholderName.split(/\s+/).filter(p => p.length > 0 && p !== 'and')`. -/
def toTokens (phName : String) : List String :=
  (wsTokens phName).filter (fun t => !(t == "and"))

/-- Exact name hit: the operator name is truthy and its trimmed
lower-cased form equals the (already trimmed, lower-cased) policyholder
name. -/
def exactPred (phName : String) (o : Operator) : Bool :=
  truthy o.operator_name && (jsLower (jsTrim (o.operator_name.getD "")) == phName)

/-- Token containment hit: the operator name is truthy and its trimmed
lower-cased form contains every policyholder-name token as a substring. -/
def tokenPred (parts : List String) (o : Operator) : Bool :=
  truthy o.operator_name &&
    parts.all (fun part => strContains (jsLower (jsTrim (o.operator_name.getD ""))) part)

/-- The `matchedOp` selection of `renderPolicies`: exact case-insensitive
trimmed equality first, then (when there is at least one token) the first
operator containing every token. -/
def matchByName (ops : List Operator) (policyholder : Option String) : Option Operator :=
  let phName := jsLower (jsTrim (policyholder.getD ""))
  let parts := toTokens phName
  match jsFind (exactPred phName) ops with
  | some o => some o
  | none =>
    if parts.length > 0 then jsFind (tokenPred parts) ops else none

/-- The displayed name `matchedOp?.operator_name || (ops[0]?.operator_name || '—')`. -/
def displayOpName (ops : List Operator) (policyholder : Option String) : String :=
  orDash ((matchByName ops policyholder).bind (fun o => o.operator_name))
    (orDash (ops.head?.bind (fun o => o.operator_name)) "—")

/-! ## Start-of-earliest-term resolution -/

/-- The rendering `parseMaybeDate(t)` then `parsed ? formatDateToMMDDYYYY(parsed) : t`:
reformat when the parse is non-null (even invalid), raw text otherwise. -/
def renderTerm (g : String → Option CalDate) (t : Option String) : String :=
  match parseMaybeDate g t with
  | some jd => formatMMDDYYYY jd
  | none => t.getD ""

/-- The value `displayStartTerm` of `renderPolicies`: starts at `'—'`, replaced by
a truthy `policy.start_of_earliest_term`; afterwards, when the driver DLN
is truthy, a DLN-matched operator exists, the policy-level field is
absent and the operator has a truthy `start_term`, that term (reformatted
when parseable) overwrites the value. -/
def displayStartTermView (g : String → Option CalDate) (dln : Option String)
    (p : Policy) : String :=
  let base := if truthy p.start_of_earliest_term
              then p.start_of_earliest_term.getD "—" else "—"
  if truthy dln then
    match jsFind (fun o => o.dln == dln) p.operators with
    | some op =>
      if !truthy p.start_of_earliest_term && truthy op.start_term then
        renderTerm g op.start_term
      else base
    | none => base
  else base

/-- The value `displayStartTerm` of `renderPolicyFull`: the trimmed-DLN-matched
operator's `start_term || '—'` when that operator has any term field;
otherwise the first operator with any term field; otherwise the header
`effective_date || '—'`. -/
def displayStartTermFull (mainDln : Option String) (p : Policy) : String :=
  match matchByLicenseFull p.operators mainDln with
  | some mo =>
    if truthy mo.start_term || truthy mo.end_term then orDash mo.start_term "—"
    else
      match jsFind (fun o => truthy o.start_term || truthy o.end_term) p.operators with
      | some anyOp => orDash anyOp.start_term "—"
      | none => orDash p.header.effective_date "—"
  | none =>
    match jsFind (fun o => truthy o.start_term || truthy o.end_term) p.operators with
    | some anyOp => orDash anyOp.start_term "—"
    | none => orDash p.header.effective_date "—"

/-! ## Gap messages of `renderPolicyFull` -/

inductive GapMsg where
  | noneMsg
  | gap (months : Option Int)
  | noGap
  | overlap (months : Option Int)
deriving DecidableEq, Repr

/-- The `months > 0 / === 0 / else` cascade; a `NaN` month count fails
both comparisons and lands in the `Overlap` branch with `Math.abs(NaN)`. -/
def classifyMonths (m : Option Int) : GapMsg :=
  match m with
  | some v =>
    if v > 0 then GapMsg.gap (some v)
    else if v == 0 then GapMsg.noGap
    else GapMsg.overlap (some (-v))
  | none => GapMsg.overlap none

/-- The within-policy gap badge: both boundaries are parsed from the
header (`expiry_date || cancellation_date` and `effective_date`); when
either parse is `null` no badge is produced, otherwise the badge comes
from `monthsBetween(endDate, startDate)`. -/
def gapMsgOf (g : String → Option CalDate) (h : PolicyHeader) : GapMsg :=
  match parseMaybeDate g (jsOr h.expiry_date h.cancellation_date),
        parseMaybeDate g h.effective_date with
  | some e, some s => classifyMonths (monthsBetweenV e s)
  | _, _ => GapMsg.noneMsg

/-- The inter-policy message: previous policy's
`expiry_date || cancellation_date` against the current policy's
`effective_date`, classified from `monthsBetween(prevEnd, curStart)`. -/
def interMsgOf (g : String → Option CalDate) (prevH curH : PolicyHeader) : GapMsg :=
  match parseMaybeDate g (jsOr prevH.expiry_date prevH.cancellation_date),
        parseMaybeDate g curH.effective_date with
  | some pe, some cs => classifyMonths (monthsBetweenV pe cs)
  | _, _ => GapMsg.noneMsg

/-! ## Spec-side definitions

These follow the wording of the specification (amended where the code
disagrees), to be compared with the source-derived definitions above. -/

/-- Spec wording: `< 0` → Expired; `0..30` inclusive → Warning;
`> 30` → Ok. -/
def classifyDaysSpec (d : Int) : ExpiryClass :=
  if d < 0 then ExpiryClass.expired
  else if d ≤ 30 then ExpiryClass.warning
  else ExpiryClass.ok

/-- Spec wording: magnitude `> 0` → Gap; `== 0` → no gap; `< 0` →
Overlap reported with the absolute value. -/
def signClassSpec (m : Int) : GapMsg :=
  if m > 0 then GapMsg.gap (some m)
  else if m = 0 then GapMsg.noGap
  else GapMsg.overlap (some (-m))

/-- The amended start-term precedence chain of `renderPolicies`, written
as an ordered chain where the first present value wins: (1) the policy's
own non-empty `start_of_earliest_term`; (2) the DLN-matched operator's
non-empty `start_term`, reformatted when parseable; (3) the em-dash
sentinel. -/
def chainStartView (g : String → Option CalDate) (dln : Option String)
    (p : Policy) : String :=
  match (if truthy p.start_of_earliest_term then p.start_of_earliest_term else none) with
  | some s => s
  | none =>
    match (if truthy dln then jsFind (fun o => o.dln == dln) p.operators else none) with
    | some op => if truthy op.start_term then renderTerm g op.start_term else "—"
    | none => "—"

/-- The amended start-term precedence chain of `renderPolicyFull` as an
ordered chain: (1) the trimmed-DLN-matched operator's `start_term || '—'`
provided that operator has any term field; (2) the first operator in
list order with any term field, taking its `start_term || '—'`;
(3) the header `effective_date || '—'`. -/
def chainStartFull (mainDln : Option String) (p : Policy) : String :=
  match (matchByLicenseFull p.operators mainDln).bind
      (fun mo => if truthy mo.start_term || truthy mo.end_term
                 then some (orDash mo.start_term "—") else none) with
  | some r => r
  | none =>
    match (jsFind (fun o => truthy o.start_term || truthy o.end_term) p.operators).map
        (fun anyOp => orDash anyOp.start_term "—") with
    | some r => r
    | none => orDash p.header.effective_date "—"

/-! ## Sample data for concrete evaluations -/

/-- A policy whose header expiry is the (unparseable but non-empty)
string `"x"`. -/
def polExpiryX : Policy := { header := { expiry_date := some "x" } }

/-- An operator list entry that cannot contain the token `jane`. -/
def opBob : Operator := { operator_name := some "Bob" }

/-- A first policy whose only expiry information is the non-empty but
unparseable string `"hello"`. -/
def polBadExpiry : Policy := { header := { end_of_latest_term := some "hello" } }

/-- Two distinguishable policies; the received list is
reverse-chronological, so `polA` (index 0) is the most recent and `polB`
the chronologically oldest. -/
def polA : Policy := { header := { policy_number := some "A" } }

/-- The chronologically older companion of `polA`. -/
def polB : Policy := { header := { policy_number := some "B" } }

/-- An operator with a name but no license number on record. -/
def opNameOnly : Operator := { operator_name := some "A" }

/-- A policy header whose expiry matches the slash date pattern with an
impossible month, and whose effective date is valid. -/
def hdrBadGap : PolicyHeader :=
  { effective_date := some "01/01/2024", expiry_date := some "13/45/2024" }

/-- A pair of valid within-policy boundaries one year apart: the header
end `01/01/2024` related to the header start `01/01/2023`. -/
def hdrGapEnd : PolicyHeader :=
  { expiry_date := some "01/01/2024", effective_date := some "01/01/2023" }

/-- The DLN-matched operator of the C2 counterexample policy: it has no
`start_term` of its own. -/
def opD1 : Operator := { operator_name := some "Main", dln := some "D1" }

/-- Another operator of the same policy carrying a `start_term`. -/
def opTermed : Operator := { operator_name := some "Other", start_term := some "2020-01-01" }

/-- A policy with no `start_of_earliest_term`, a DLN-matched operator
without a start term, a second operator with one, and a header effective
date. -/
def polNoFallback : Policy :=
  { header := { effective_date := some "01/05/2019" }, operators := [opD1, opTermed] }

/-! ## Helper lemmas -/

theorem jsFind_eq_find? (p : α → Bool) (l : List α) :
    jsFind p l = l.find? p := by
  induction l with
  | nil => rfl
  | cons x xs ih =>
    by_cases h : p x <;> simp [jsFind, List.find?, h, ih]

theorem orDash_ne_empty (a : Option String) (d : String) (hd : ¬ d = "") :
    ¬ orDash a d = "" := by
  unfold orDash
  match a with
  | none => exact hd
  | some s =>
    by_cases hs : s == ""
    · simpa [hs] using hd
    · simpa [hs] using (by simpa using hs : ¬ s = "")

theorem currentPolicyExpiryOf_ne_empty (policies : List Policy) :
    ¬ currentPolicyExpiryOf policies = "" := by
  unfold currentPolicyExpiryOf
  match policies with
  | [] => decide
  | p :: rest => exact orDash_ne_empty _ _ (orDash_ne_empty _ _ (by decide))

/-! ## Claim theorems -/

/-- C7: for every two parsed dates `d1` and `d2`, `monthsBetween(d1, d2)`
equals `(year2 - year1) * 12 + (month2 - month1)`, an exact integer that
ignores the day-of-month entirely (the right-hand side does not mention
`day1` or `day2`). -/
theorem C7_monthsBetween_formula (y1 m1 d1 y2 m2 d2 : Nat) :
    monthsBetween (some (some ⟨y1, m1, d1⟩)) (some (some ⟨y2, m2, d2⟩)) =
      some (some (((y2 : Int) - (y1 : Int)) * 12 + ((m2 : Int) - (m1 : Int)))) := by
  simp only [monthsBetween, monthsBetweenV, jsAdd, jsMul, jsSub, getFullYear, getMonth]
  congr 2
  ring

/-- C9: on the empty policy list every headline metric is the missing
sentinel (the em-dash) and the days-to-expiry element is unclassified,
with no exception raised (all functions are total). -/
theorem C9_empty_policy_list (dparse : String → Option Int) (today : Int) :
    yearsContinuousInsuranceDateOf [] = "—"
    ∧ currentInsuranceDateOf [] = "—"
    ∧ currentPolicyExpiryOf [] = "—"
    ∧ daysToExpiryPair dparse today [] = (ExpiryClass.unclassified, "—") :=
  ⟨rfl, rfl, rfl, rfl⟩

/-- C10: for every parseable expiry, the rendered days-to-expiry text is
`Math.max(0, days)`: when the whole-day difference is negative the
element shows `0` while carrying the Expired class, so the sign is
visible only through the classification. -/
theorem C10_displayed_days_clamped (dparse : String → Option Int) (today : Int)
    (policies : List Policy) (e : Int)
    (hc : ¬ currentPolicyExpiryOf policies = "—")
    (he : dparse (currentPolicyExpiryOf policies) = some e) :
    (daysToExpiryPair dparse today policies).2 = toString (max 0 (e - today))
    ∧ (e - today < 0 →
        daysToExpiryPair dparse today policies = (ExpiryClass.expired, "0")) := by
  have hne : ¬ currentPolicyExpiryOf policies = "" :=
    currentPolicyExpiryOf_ne_empty policies
  have hcond : (currentPolicyExpiryOf policies == ""
      || currentPolicyExpiryOf policies == "—") = false := by
    simp [hne, hc]
  simp only [daysToExpiryPair, hcond, Bool.false_eq_true, if_false, he]
  refine ⟨by simp, fun hneg => ?_⟩
  have hmax : max (0 : Int) (e - today) = 0 := by omega
  rw [if_pos hneg, hmax]
  rfl

/-- Witness for C10: a policy three days past expiry renders `0` with the
Expired class. -/
theorem C10_witness :
    daysToExpiryPair (fun _ => some 0) 3 [polExpiryX] = (ExpiryClass.expired, "0") :=
  (C10_displayed_days_clamped (fun _ => some 0) 3 [polExpiryX] 0 (by decide) rfl).2
    (by decide)

/-- C5: `parseMaybeDate` tries, in order and first match winning, the
two-digit/two-digit/four-digit slash pattern read as month/day/year, then
an embedded `YYYY-MM-DD` pattern, then the generic free-form parser on
the whole string; a missing or empty input, or a failed generic parse
(`NaN`), yields the `null` sentinel, and the function is total. -/
theorem C5_parseMaybeDate_order (g : String → Option CalDate) (s : String) :
    parseMaybeDate g none = none
    ∧ parseMaybeDate g (some "") = none
    ∧ (∀ m d y, scanSlash none s.toList = some (m, d, y) →
        parseMaybeDate g (some s) = some (mkJsDate y m d))
    ∧ (scanSlash none s.toList = none →
        ∀ y m d, scanIso none s.toList = some (y, m, d) →
          parseMaybeDate g (some s) = some (mkJsDate y m d))
    ∧ (¬ s = "" → scanSlash none s.toList = none → scanIso none s.toList = none →
        parseMaybeDate g (some s) = Option.map some (g s)) := by
  refine ⟨rfl, rfl, ?_, ?_, ?_⟩
  · intro m d y h
    by_cases hs : s = ""
    · subst hs
      simp [scanSlash] at h
    · simp only [parseMaybeDate]
      rw [if_neg (by simp [hs]), h]
  · intro h1 y m d h2
    by_cases hs : s = ""
    · subst hs
      simp [scanIso] at h2
    · simp only [parseMaybeDate]
      rw [if_neg (by simp [hs]), h1, h2]
  · intro hs h1 h2
    simp only [parseMaybeDate]
    rw [if_neg (by simp [hs]), h1, h2]
    cases g s <;> rfl

/-- Witness for C5: the slash pattern is read as month/day/year. -/
theorem C5_witness :
    parseMaybeDate (fun _ => none) (some "03/04/2024") =
      some (some ⟨2024, 3, 4⟩) := by
  have h := (C5_parseMaybeDate_order (fun _ => none) "03/04/2024").2.2.1 3 4 2024 rfl
  rw [h]
  rfl

/-- C8: name-based matching tries exact case-insensitive trimmed
equality first, then (when the tokenized policyholder name, minus the
literal token `and`, is non-empty) the first operator whose lower-cased
name contains every token; when nothing matches the caller falls back to
the operator at index 0, or the em-dash when the list is empty. -/
theorem C8_matchByName_chain (ops : List Operator) (ph : Option String) :
    matchByName ops ph =
      ((ops.find? (exactPred (jsLower (jsTrim (ph.getD ""))))).orElse
        (fun _ =>
          if toTokens (jsLower (jsTrim (ph.getD ""))) = [] then none
          else ops.find? (tokenPred (toTokens (jsLower (jsTrim (ph.getD "")))))))
    ∧ (matchByName ops ph = none →
        displayOpName ops ph = orDash (ops.head?.bind (fun o => o.operator_name)) "—")
    ∧ displayOpName [] ph = "—" := by
  refine ⟨?_, ?_, ?_⟩
  · simp only [matchByName, jsFind_eq_find?]
    cases hf : List.find? (exactPred (jsLower (jsTrim (ph.getD "")))) ops with
    | some o => simp [Option.orElse]
    | none =>
      simp only [Option.orElse]
      by_cases hp : toTokens (jsLower (jsTrim (ph.getD ""))) = []
      · simp [hp]
      · have : 0 < (toTokens (jsLower (jsTrim (ph.getD "")))).length :=
          List.length_pos.mpr hp
        simp [hp, this]
  · intro h
    simp only [displayOpName, h, Option.bind]
    rfl
  · have hm : matchByName [] ph = none := by
      simp [matchByName, jsFind]
    simp [displayOpName, hm, orDash]

/-- Witness for C8: with policyholder `John and Jane Smith` and only the
operator `Bob`, no operator qualifies and the caller falls back to index
0. -/
theorem C8_witness :
    displayOpName [opBob] (some "John and Jane Smith") = "Bob" := by
  have h := (C8_matchByName_chain [opBob] (some "John and Jane Smith")).2.1 (by decide)
  rw [h]
  rfl

/-- Counterexample for C1: the claim renders an unparseable expiry as
unclassified / em-dash, but the code classifies it `ok` and renders
`NaN` (`NaN` fails both the `< 0` and the `<= 30` comparison and
`Math.max(0, NaN)` is `NaN`). -/
theorem C1_unparseable_cex :
    daysToExpiryPair (fun _ => none) 0 [polBadExpiry] = (ExpiryClass.ok, "NaN") := rfl

/-- C1 (amended): the headline expiry is the first policy's header
`end_of_latest_term || expiry_date || '—'`; the element is unclassified
with an em-dash only when that headline is the em-dash itself; a
parseable expiry is classified by the whole-day difference to today
(`< 0` Expired, `0..30` Warning — in particular today gives 0 and
Warning —, `> 30` Ok); a non-em-dash unparseable expiry is classified
Ok and rendered `NaN`. -/
theorem C1_expiry_classification (dparse : String → Option Int) (today : Int)
    (p : Policy) (rest : List Policy) :
    currentPolicyExpiryOf (p :: rest) =
      orDash p.header.end_of_latest_term (orDash p.header.expiry_date "—")
    ∧ (currentPolicyExpiryOf (p :: rest) = "—" →
        daysToExpiryPair dparse today (p :: rest) = (ExpiryClass.unclassified, "—"))
    ∧ (¬ currentPolicyExpiryOf (p :: rest) = "—" →
        ∀ e, dparse (currentPolicyExpiryOf (p :: rest)) = some e →
          daysToExpiryPair dparse today (p :: rest) =
            (classifyDaysSpec (e - today), toString (max 0 (e - today))))
    ∧ (¬ currentPolicyExpiryOf (p :: rest) = "—" →
        dparse (currentPolicyExpiryOf (p :: rest)) = some today →
          daysToExpiryPair dparse today (p :: rest) = (ExpiryClass.warning, "0"))
    ∧ (¬ currentPolicyExpiryOf (p :: rest) = "—" →
        dparse (currentPolicyExpiryOf (p :: rest)) = none →
          daysToExpiryPair dparse today (p :: rest) = (ExpiryClass.ok, "NaN")) := by
  have hne : ¬ currentPolicyExpiryOf (p :: rest) = "" :=
    currentPolicyExpiryOf_ne_empty (p :: rest)
  refine ⟨rfl, ?_, ?_, ?_, ?_⟩
  · intro h
    simp [daysToExpiryPair, h]
  · intro hc e he
    have hcond : (currentPolicyExpiryOf (p :: rest) == ""
        || currentPolicyExpiryOf (p :: rest) == "—") = false := by
      simp [hne, hc]
    simp only [daysToExpiryPair, hcond, Bool.false_eq_true, if_false, he]
    rfl
  · intro hc he
    have hcond : (currentPolicyExpiryOf (p :: rest) == ""
        || currentPolicyExpiryOf (p :: rest) == "—") = false := by
      simp [hne, hc]
    simp only [daysToExpiryPair, hcond, Bool.false_eq_true, if_false, he]
    norm_num
    rfl
  · intro hc he
    have hcond : (currentPolicyExpiryOf (p :: rest) == ""
        || currentPolicyExpiryOf (p :: rest) == "—") = false := by
      simp [hne, hc]
    simp only [daysToExpiryPair, hcond, Bool.false_eq_true, if_false, he]

/-- Witness for C1: an expiry string that parses to today's very day is
classified Warning with 0 days. -/
theorem C1_witness :
    daysToExpiryPair (fun _ => some 5) 5 [polExpiryX] = (ExpiryClass.warning, "0") :=
  ((C1_expiry_classification (fun _ => some 5) 5 polExpiryX []).2.2.2.1) (by decide) rfl

/-- Counterexample for C3: the chronologically oldest policy (`polB`,
the last element of the received list) is displayed first with number
2 = the list size, not 1; number 1 goes to the most recent policy. -/
theorem C3_oldest_numbered_cex :
    displayedPolicies [polA, polB] = [(polB, 2), (polA, 1)] := rfl

/-- C3 (amended): the display iterates a reversed copy of the received
reverse-chronological list and numbers position `j` of that copy as
`size - j`, so the displayed numbers run `size, size-1, ..., 1`: the
chronologically oldest policy (shown first) gets `size` and the most
recent gets 1; the received list itself is not mutated (the numbering is
a pure function of it). -/
theorem C3_policy_numbering (policies : List Policy) :
    (displayedPolicies policies).map Prod.fst = policies.reverse
    ∧ (displayedPolicies policies).map Prod.snd =
        (List.range policies.length).map (fun j => policies.length - j)
    ∧ (displayedPolicies policies).head? =
        policies.getLast?.map (fun p => (p, policies.length)) := by
  refine ⟨?_, ?_, ?_⟩
  · simp [displayedPolicies, List.map_map, Function.comp_def, List.enum_map_snd]
  · rw [displayedPolicies, List.map_map]
    have h1 : ((fun pr : Nat × Policy => (pr.2, policies.reverse.length - pr.1)) ·
        |> Prod.snd) = (fun pr : Nat × Policy => policies.length - pr.1) := by
      funext pr
      simp
    simp only [Function.comp_def]
    rw [show (fun x : Nat × Policy => policies.reverse.length - x.1) =
        ((fun j => policies.length - j) ∘ Prod.fst) by
      funext x
      simp [Function.comp_def]]
    rw [← List.map_map, List.enum_map_fst, List.length_reverse]
  · rw [show policies.getLast? = policies.reverse.head? from (List.head?_reverse _).symm]
    cases hl : policies.reverse with
    | nil => simp [displayedPolicies, hl]
    | cons a t =>
      simp [displayedPolicies, hl, List.enum]
      rw [← List.length_reverse policies, hl]
      simp

/-- Counterexample for C4: with an empty (missing) target license, the
`renderPolicyFull` matcher compares trimmed empty strings and returns
the first operator without a license, instead of returning none as the
claim states. -/
theorem C4_empty_target_cex :
    matchByLicenseFull [opNameOnly] none = some opNameOnly := rfl

/-- C4 (amended): the `renderPolicyFull` matcher returns the first
operator in list order whose trimmed license equals the trimmed target,
treating missing values as empty strings — so an empty target matches
the first operator whose trimmed license is empty — and none when the
list is empty or nothing matches, never an error; the `renderPolicies`
matcher returns none for a falsy target and otherwise compares licenses
untrimmed. -/
theorem C4_license_matching (ops : List Operator) (dln : Option String) :
    matchByLicenseFull ops dln =
      ops.find? (fun o => jsTrim (o.dln.getD "") == jsTrim (dln.getD ""))
    ∧ matchByLicenseView ops dln =
        (if truthy dln then ops.find? (fun o => o.dln == dln) else none)
    ∧ matchByLicenseFull [] dln = none
    ∧ matchByLicenseView [] dln = none := by
  refine ⟨?_, ?_, rfl, ?_⟩
  · simp [matchByLicenseFull, jsFind_eq_find?]
  · simp [matchByLicenseView, jsFind_eq_find?]
  · simp [matchByLicenseView, jsFind]

/-- Counterexample for C6: the boundary `13/45/2024` is unparseable as a
date, yet the within-policy gap is not indeterminate — the string
matches the slash pattern, yields an `Invalid Date`, and the `NaN` month
count falls into the `Overlap` branch. -/
theorem C6_invalid_boundary_cex :
    gapMsgOf (fun _ => none) hdrBadGap = GapMsg.overlap none := rfl

/-- C6 (amended): when both boundaries parse to valid dates the gap kind
follows the sign of the month magnitude exactly as claimed; when either
boundary is `null` (missing or failing every parse route) the result is
indeterminate (no badge) and no exception is raised; but a boundary that
matches a date pattern with impossible components yields an `Invalid
Date` whose `NaN` magnitude is reported as an Overlap; the inter-policy
message applies the same computation to the previous policy's end and
the current policy's start. -/
theorem C6_gap_sign (g : String → Option CalDate) (h : PolicyHeader) :
    (∀ e s m, parseMaybeDate g (jsOr h.expiry_date h.cancellation_date) = some e →
        parseMaybeDate g h.effective_date = some s →
        monthsBetweenV e s = some m →
        gapMsgOf g h = signClassSpec m)
    ∧ ((parseMaybeDate g (jsOr h.expiry_date h.cancellation_date) = none
        ∨ parseMaybeDate g h.effective_date = none) → gapMsgOf g h = GapMsg.noneMsg)
    ∧ (∀ e s, parseMaybeDate g (jsOr h.expiry_date h.cancellation_date) = some e →
        parseMaybeDate g h.effective_date = some s →
        monthsBetweenV e s = none →
        gapMsgOf g h = GapMsg.overlap none)
    ∧ (∀ prevH curH : PolicyHeader, interMsgOf g prevH curH =
        gapMsgOf g { effective_date := curH.effective_date,
                     expiry_date := prevH.expiry_date,
                     cancellation_date := prevH.cancellation_date }) := by
  refine ⟨?_, ?_, ?_, ?_⟩
  · intro e s m he hs hm
    unfold gapMsgOf
    rw [he, hs]
    show classifyMonths (monthsBetweenV e s) = signClassSpec m
    rw [hm]
    show classifyMonths (some m) = signClassSpec m
    by_cases h1 : m > 0
    · simp [classifyMonths, signClassSpec, h1]
    · by_cases h2 : m = 0 <;> simp [classifyMonths, signClassSpec, h1, h2]
  · intro hor
    unfold gapMsgOf
    rcases hor with h1 | h2
    · rw [h1]
    · rw [h2]
      cases hp : parseMaybeDate g (jsOr h.expiry_date h.cancellation_date) <;> rfl
  · intro e s he hs hm
    unfold gapMsgOf
    rw [he, hs]
    show classifyMonths (monthsBetweenV e s) = GapMsg.overlap none
    rw [hm]
    rfl
  · intro prevH curH
    rfl

/-- Witness for C6: with both boundaries determinate and magnitude
`monthsBetween(end, start) = -12`, the badge is an Overlap of 12
months. -/
theorem C6_witness :
    gapMsgOf (fun _ => none) hdrGapEnd = GapMsg.overlap (some 12) := by
  have h := (C6_gap_sign (fun _ => none) hdrGapEnd).1
    (some ⟨2024, 1, 1⟩) (some ⟨2023, 1, 1⟩) (-12) rfl rfl (by decide)
  rw [h]
  rfl

/-- Counterexample for C2: the claimed chain would fall through to the
other operator's `start_term` (step 3) or the header `effective_date`
(step 4), but `renderPolicies` displays the em-dash sentinel. -/
theorem C2_no_fallback_cex :
    displayStartTermView (fun _ => none) (some "D1") polNoFallback = "—"
    ∧ ¬ displayStartTermView (fun _ => none) (some "D1") polNoFallback = "2020-01-01"
    ∧ ¬ displayStartTermView (fun _ => none) (some "D1") polNoFallback = "01/05/2019" := by
  refine ⟨rfl, by decide, by decide⟩

/-- C2 (amended): in `renderPolicies` the start term follows the chain
(1) the policy's own non-empty `start_of_earliest_term`, (2) the
DLN-matched operator's non-empty `start_term` (reformatted when
parseable), (3) the em-dash — with no scan of the other operators and no
`effective_date` fallback; in `renderPolicyFull` it follows (1) the
trimmed-DLN-matched operator's `start_term || '—'` whenever that
operator has any term field, (2) the first operator in list order with
any term field, (3) the header `effective_date || '—'`. -/
theorem C2_start_term_chain (g : String → Option CalDate)
    (dln mainDln : Option String) (p : Policy) :
    displayStartTermView g dln p = chainStartView g dln p
    ∧ displayStartTermFull mainDln p = chainStartFull mainDln p := by
  constructor
  · unfold displayStartTermView chainStartView
    by_cases hs : truthy p.start_of_earliest_term
    · cases hsoet : p.start_of_earliest_term with
      | none => rw [hsoet] at hs; simp [truthy] at hs
      | some s =>
        rw [hsoet] at hs
        by_cases hd : truthy dln
        · cases hf : jsFind (fun o => o.dln == dln) p.operators <;>
            simp [hs, hsoet, hd, hf]
        · simp [hs, hsoet, hd]
    · by_cases hd : truthy dln
      · cases hf : jsFind (fun o => o.dln == dln) p.operators with
        | none => simp [hs, hd, hf]
        | some op =>
          by_cases ht : truthy op.start_term <;> simp [hs, hd, hf, ht]
      · simp [hs, hd]
  · unfold displayStartTermFull chainStartFull
    cases hm : matchByLicenseFull p.operators mainDln with
    | none =>
      cases hf : jsFind (fun o => truthy o.start_term || truthy o.end_term) p.operators <;>
        simp [hf]
    | some mo =>
      by_cases ht : (truthy mo.start_term || truthy mo.end_term) = true
      · have ht2 : truthy mo.start_term = true ∨ truthy mo.end_term = true := by
          simpa using ht
        simp [ht, ht2]
      · have ht2 : ¬ (truthy mo.start_term = true ∨ truthy mo.end_term = true) := by
          simpa using ht
        cases hf : jsFind (fun o => truthy o.start_term || truthy o.end_term) p.operators <;>
          simp [ht, ht2, hf]

end PolicyScanner
